import Mathlib

/-!
Verification of the worker-side job registry and reconciliation engine of the
Nguyen-Hoa/worker repository, against its natural-language specification.

The embedding follows the generation of the code selected by the claims:
serverWorker.go lines 240-524 (the variant whose `updateGetRunningJobs` spans
lines 417-452), managerWorker.go, and worker.go for the shared struct shapes.

External collaborators (the docker runtime, the wattsup power-meter driver,
the network transports) are modelled as explicit oracles passed to each
operation.  The registry type `SharedDockerJobsMap` and the record methods of
the external `github.com/Nguyen-Hoa/job` package are not part of this
repository's sources; they are modelled from the specification, and each such
definition is marked in its doc comment.

Machine times and durations are modelled as `Int` nanoseconds, matching Go's
`time.Duration` (an int64 nanosecond count); `time.Duration(-1)` is the
orphan sentinel and `time.Duration(d) * time.Second` multiplies by 10^9.
-/

deriving instance DecidableEq for Except

namespace Worker

/-- Container descriptor reported by the runtime (`types.Container`); the
worker logic under verification consults only the identity field. -/
structure Container where
  id : String
deriving DecidableEq

/-- Job metadata embedded in every tracked record (`job.BaseJob`): creation
timestamp, accumulated runtime, and the requested duration budget, all in
nanoseconds. -/
structure BaseJob where
  startTime : Int
  totalRunTime : Int
  duration : Int
deriving DecidableEq

/-- Tracked job record (`job.DockerJob`): the base metadata plus the
last-observed container descriptor. -/
structure DockerJob where
  baseJob : BaseJob
  container : Container
deriving DecidableEq

/-- Identity of a tracked record: the embedded container's id, as Go's
promoted `DockerJob.ID` field. -/
def DockerJob.id (j : DockerJob) : String := j.container.id

/-- Nanoseconds per second, Go's `time.Second`. -/
def nsPerSecond : Int := 1000000000

/-- Orphan sentinel budget, Go's `time.Duration(-1)`: one negative nanosecond,
denoting an unbounded/unknown budget. -/
def sentinelDuration : Int := -1

/-- Modelled from the spec: `UpdateTotalRunTime` is a method of the external
`github.com/Nguyen-Hoa/job` package, which is not under src/.  Spec section 3
describes `totalRunTime` as "accumulated elapsed duration, recomputed each
reconciliation pass as elapsed-since-start", so the model sets the
accumulator to `now - startTime` (absolute, not additive). -/
def DockerJob.updateTotalRunTime (j : DockerJob) (now : Int) : DockerJob :=
  { j with baseJob := { j.baseJob with totalRunTime := now - j.baseJob.startTime } }

/-- Modelled from the spec: the registry type `SharedDockerJobsMap` of the
external `github.com/Nguyen-Hoa/job` package is not under src/.  Spec section
4.1 specifies it as a mapping from container identity to job metadata with
`get`, `update` (upsert), `delete`, `keys` and `refresh`; it is modelled as an
association list keyed by container id. -/
abbrev JobMap : Type := List (String × DockerJob)

/-- Registry `Get`: first matching entry for the key, if any. -/
def mapGet : JobMap → String → Option DockerJob
  | [], _ => none
  | (k, v) :: rest, id => if k = id then some v else mapGet rest id

/-- Registry `Delete`: drop every entry stored under the key. -/
def mapDelete : JobMap → String → JobMap
  | [], _ => []
  | (k, v) :: rest, id => if k = id then mapDelete rest id else (k, v) :: mapDelete rest id

/-- Registry `Update` (upsert): after it, `get id` yields the new record and
every other key is unchanged, as for a Go map assignment. -/
def mapUpdate (m : JobMap) (id : String) (v : DockerJob) : JobMap :=
  (id, v) :: mapDelete m id

/-- Registry `Keys`: the stored identities. -/
def mapKeys (m : JobMap) : List String :=
  m.map Prod.fst

/-- Zero-value record installed by the modelled `Refresh` for a live id whose
record was removed mid-pass (the Go zero value of the record struct). -/
def zeroJob (id : String) : DockerJob :=
  { baseJob := { startTime := 0, totalRunTime := 0, duration := 0 },
    container := { id := id } }

/-- Modelled from the spec: `SharedDockerJobsMap.Refresh` of the external
`github.com/Nguyen-Hoa/job` package is not under src/.  Spec section 4.1:
"replace the registry's key set with exactly liveIds, preserving existing
record values for retained keys and dropping the rest"; a live id with no
existing record receives the zero-value record so that the key set is exactly
the live ids. -/
def mapRefresh (m : JobMap) (liveIds : List String) : JobMap :=
  liveIds.dedup.map (fun id => (id, (mapGet m id).getD (zeroJob id)))

/-- Mutable worker state shared by the service handlers: the hostname used by
the self-exclusion rule, the tracked-job registry `RunningJobs`, and the kill
set `jobsToKill` (serverWorker.go / worker.go struct fields). -/
structure WorkerState where
  hostname : String
  runningJobs : JobMap
  jobsToKill : JobMap
deriving DecidableEq

/-- Record created for an orphan container (serverWorker.go:433-440): started
now, zero accumulated runtime, sentinel budget. -/
def orphanRecord (now : Int) (id : String) : DockerJob :=
  { baseJob := { startTime := now, totalRunTime := 0, duration := sentinelDuration },
    container := { id := id } }

/-- Local re-budgeted copy built for a tracked container
(serverWorker.go:423-428): the stored base metadata, the freshly observed
container descriptor, and the recomputed total runtime. -/
def trackedCopy (r : DockerJob) (c : Container) (now : Int) : DockerJob :=
  DockerJob.updateTotalRunTime { baseJob := r.baseJob, container := c } now

/-- One iteration of the classification loop of `updateGetRunningJobs`
(serverWorker.go:419-445).  Go evaluates `container.ID[:12] != w.Hostname`:
the slice panics (modelled as `.error ()`) when the id is shorter than twelve
characters, and otherwise the worker's own container is excluded.  A tracked
job is re-budgeted on a local copy and added to the kill set when expired; an
unknown id is registered as an orphan in both maps; every non-self id is
collected. -/
def classifyStep (now : Int) (st : WorkerState) (ids : List String) (c : Container) :
    Except Unit (WorkerState × List String) :=
  if 12 ≤ c.id.length then
    if c.id.take 12 ≠ st.hostname then
      match mapGet st.runningJobs c.id with
      | some base =>
          let updatedCtr := trackedCopy base c now
          let st1 :=
            if updatedCtr.baseJob.duration ≤ updatedCtr.baseJob.totalRunTime then
              { st with jobsToKill := mapUpdate st.jobsToKill updatedCtr.id updatedCtr }
            else st
          .ok (st1, ids ++ [c.id])
      | none =>
          let newCtr := orphanRecord now c.id
          .ok ({ st with
                  jobsToKill := mapUpdate st.jobsToKill newCtr.id newCtr,
                  runningJobs := mapUpdate st.runningJobs c.id newCtr },
               ids ++ [c.id])
    else
      .ok (st, ids)
  else
    .error ()

/-- Classification phase of a reconciliation pass: the loop of
`updateGetRunningJobs` over every container reported live by the runtime
(serverWorker.go:418-446). -/
def classifyLoop (now : Int) : List Container → WorkerState → List String →
    Except Unit (WorkerState × List String)
  | [], st, ids => .ok (st, ids)
  | c :: cs, st, ids =>
    match classifyStep now st ids c with
    | .error e => .error e
    | .ok (st1, ids1) => classifyLoop now cs st1 ids1

/-- Go function StopJob (serverWorker.go:402-415): fails with the not-found
error when the id is not tracked; otherwise issues a runtime stop (outcome
given by the `stopOk` oracle) and, on success, recomputes the record's
total runtime on a local copy which the Go code logs.  StopJob never writes
the registry or the kill set, so the returned state always equals the input
state; it is returned explicitly so that callers' sequencing is visible. -/
def stopJob (stopOk : String → Bool) (now : Int) (st : WorkerState) (id : String) :
    WorkerState × Except String DockerJob :=
  match mapGet st.runningJobs id with
  | none => (st, .error "failed to stop: Job ID not found")
  | some ctr =>
      if stopOk id then (st, .ok (ctr.updateTotalRunTime now))
      else (st, .error "container stop failed")

/-- Convenience: delete an identity from both the kill set and the registry,
the success path of the kill processor (serverWorker.go:519-520). -/
def deleteBoth (st : WorkerState) (id : String) : WorkerState :=
  { st with
      jobsToKill := mapDelete st.jobsToKill id,
      runningJobs := mapDelete st.runningJobs id }

/-- Kill-processor loop over a snapshot of the kill-set keys
(serverWorker.go:515-522): each identity gets one StopJob call; on failure the
error is only logged and neither map changes, on success the identity is
removed from both maps. -/
def killLoop (stopOk : String → Bool) (now : Int) :
    List String → WorkerState → WorkerState
  | [], st => st
  | id :: rest, st =>
    match (stopJob stopOk now st id).2 with
    | .error _ => killLoop stopOk now rest st
    | .ok _ => killLoop stopOk now rest (deleteBoth st id)

/-- Go function killJobs (serverWorker.go:514-524): drain the kill set by
iterating a snapshot of its keys. -/
def killJobs (stopOk : String → Bool) (now : Int) (st : WorkerState) : WorkerState :=
  killLoop stopOk now (mapKeys st.jobsToKill) st

/-- Reconciliation pass `updateGetRunningJobs` (serverWorker.go:417-452):
classify every runtime-reported container, run the kill processor, then
refresh the registry onto the collected live ids.  A panic of the
twelve-character slice surfaces as `.error`. -/
def updateGetRunningJobs (stopOk : String → Bool) (now : Int) (st : WorkerState)
    (cs : List Container) : Except Unit WorkerState :=
  match classifyLoop now cs st [] with
  | .error e => .error e
  | .ok (st1, ids) =>
      let st2 := killJobs stopOk now st1
      .ok { st2 with runningJobs := mapRefresh st2.runningJobs ids }

/-- Per-container stats collection loop of `GetRunningJobsStats`
(serverWorker.go:471-486): slice the first twelve characters of the id (a
panic, modelled `.error ()`, when the id is shorter) to skip the worker's own
container, skip a container whose stats fetch fails (oracle `statsOf` returns
`none`), and record the raw stats blob otherwise. -/
def statsLoop (hostname : String) (statsOf : String → Option String) :
    List Container → List (String × String) → Except Unit (List (String × String))
  | [], acc => .ok acc
  | c :: cs, acc =>
    if 12 ≤ c.id.length then
      if c.id.take 12 ≠ hostname then
        match statsOf c.id with
        | none => statsLoop hostname statsOf cs acc
        | some raw => statsLoop hostname statsOf cs (acc ++ [(c.id, raw)])
      else
        statsLoop hostname statsOf cs acc
    else
      .error ()

/-- Go function GetRunningJobsStats (serverWorker.go:463-488): run a
reconciliation pass over the listed containers, then fetch a one-shot stats
blob for every live non-self container. -/
def getRunningJobsStats (stopOk : String → Bool) (statsOf : String → Option String)
    (now : Int) (st : WorkerState) (cs : List Container) :
    Except Unit (WorkerState × List (String × String)) :=
  match updateGetRunningJobs stopOk now st cs with
  | .error e => .error e
  | .ok st1 =>
      match statsLoop st.hostname statsOf cs [] with
      | .error e => .error e
      | .ok stats => .ok (st1, stats)

/-- Modelled from the spec: the wattsup power-meter driver is an external
collaborator (spec sections 1 and 4.4), specified at its interface boundary:
a handle knows whether a metering session is running; `New` yields a fresh
not-yet-started handle. -/
structure Wattsup where
  isRunning : Bool
deriving DecidableEq

/-- Outcomes of the underlying power-meter device commands. -/
structure MeterEnv where
  startOk : Bool
  stopOk : Bool
deriving DecidableEq

/-- Modelled from the spec: `powerMeter.New(config.Wattsup)` returns a fresh,
not-yet-started meter handle. -/
def pmNew : Wattsup := { isRunning := false }

/-- Modelled from the spec: the driver's `Start` issues the device start
command; on success the session is running. -/
def pmStart (env : MeterEnv) (m : Wattsup) : Except String Wattsup :=
  if env.startOk then .ok { m with isRunning := true } else .error "meter start failed"

/-- Modelled from the spec: the driver's `Stop` issues the device stop
command; on success the session is no longer running. -/
def pmStop (env : MeterEnv) (m : Wattsup) : Except String Wattsup :=
  if env.stopOk then .ok { m with isRunning := false } else .error "meter stop failed"

/-- Go function StartMeter (serverWorker.go:313-326), restart policy: when a
session is already running, stop it and replace the handle with a fresh
instance; then start (the possibly fresh) handle.  Returns the handle the
worker keeps. -/
def startMeter (env : MeterEnv) (m : Wattsup) : Except String Wattsup :=
  if m.isRunning then
    match pmStop env m with
    | .error e => .error e
    | .ok _ => pmStart env pmNew
  else
    pmStart env m

/-- Go function StopMeter (serverWorker.go:328-335): stop the device and, on
success, reset the handle to a fresh instance. -/
def stopMeter (env : MeterEnv) (m : Wattsup) : Except String Wattsup :=
  match pmStop env m with
  | .error e => .error e
  | .ok _ => .ok pmNew

/-- Manager-side worker configuration fields consulted by `New`
(managerWorker.go:17-41). -/
structure MgrConfig where
  rpcServer : Bool
  rpcPort : String
  httpPort : String
deriving DecidableEq

/-- Outcomes of the external transport operations the manager performs during
construction; the network is an external collaborator.  For an RPC call,
`none` models a failed call and `some x` a completed call whose reply is `x`;
for HTTP, `none` models a transport error and `some s` a response with status
code `s`. -/
structure MgrEnv where
  rpcDialOk : Bool
  rpcIsAvailableReply : Option Bool
  rpcPowerMeterOnReply : Option Bool
  rpcStartMeterOk : Bool
  httpAvailableStatus : Option Nat
  httpPowerMeterStatus : Option Nat
  httpPowerMeterBodyNotRunning : Bool
  httpStartMeterCompleted : Bool
deriving DecidableEq

/-- Connected manager client as built by `New` (managerWorker.go:17-64). -/
structure MgrClient where
  rpcServer : Bool
  available : Bool
  hasPowerMeter : Bool
deriving DecidableEq

/-- Go method ManagerWorker.IsAvailable (managerWorker.go:247-266).  RPC
branch: a failed call yields false; a completed call yields true — the
boolean reply written by the worker is dropped on the floor, `available` is
never read after the call.  HTTP branch: a transport error aborts (modelled
false) and otherwise availability is the status being 200. -/
def managerIsAvailable (env : MgrEnv) (rpcServer : Bool) : Bool :=
  if rpcServer then
    match env.rpcIsAvailableReply with
    | none => false
    | some _ => true
  else
    match env.httpAvailableStatus with
    | none => false
    | some status => status == 200

/-- Go method ManagerWorker.PowerMeterOn (managerWorker.go:268-294): RPC
branch returns the worker's boolean reply (false on call failure); HTTP
branch requires status 200 and a body not containing the not-running
marker. -/
def managerPowerMeterOn (env : MgrEnv) (rpcServer : Bool) : Bool :=
  if rpcServer then
    match env.rpcPowerMeterOnReply with
    | none => false
    | some b => b
  else
    match env.httpPowerMeterStatus with
    | none => false
    | some status =>
        if status ≠ 200 then false
        else if env.httpPowerMeterBodyNotRunning then false else true

/-- Go method ManagerWorker.StartMeter (managerWorker.go:66-78): RPC branch
fails iff the call fails.  HTTP branch: when a response arrives, the function
returns `err`, which is nil for any completed POST — even a non-200 status
yields success (the status is only compared, the returned error is the
transport error); a failed POST dereferences a nil response, modelled as a
construction-aborting error. -/
def managerStartMeter (env : MgrEnv) (rpcServer : Bool) : Except String Unit :=
  if rpcServer then
    if env.rpcStartMeterOk then .ok () else .error "rpc start meter call failed"
  else
    if env.httpStartMeterCompleted then .ok ()
    else .error "meter start post failed"

/-- Go function New for the manager client (managerWorker.go:17-64): resolve
the transport (RPC dial when configured, else HTTP base URL, else a
configuration error), require `IsAvailable`, and when the worker reports a
power meter eagerly start it, aborting construction on a meter error. -/
def mgrNew (env : MgrEnv) (config : MgrConfig) : Except String MgrClient :=
  let transport : Except String Bool :=
    if config.rpcServer ∧ config.rpcPort ≠ "" then
      if env.rpcDialOk then .ok true else .error "rpc dial failed"
    else if config.httpPort ≠ "" then .ok false
    else .error "no valid rpc or http configuration provided"
  match transport with
  | .error e => .error e
  | .ok rpcServer =>
      let available := managerIsAvailable env rpcServer
      if available then
        let hasPM := managerPowerMeterOn env rpcServer
        if hasPM then
          match managerStartMeter env rpcServer with
          | .error e => .error e
          | .ok _ => .ok { rpcServer := rpcServer, available := available, hasPowerMeter := hasPM }
        else
          .ok { rpcServer := rpcServer, available := available, hasPowerMeter := hasPM }
      else
        .error "worker not available, check that worker is running"

/-! Basic facts about the registry operations. -/

theorem mapGet_mapDelete (m : JobMap) (id id1 : String) :
    mapGet (mapDelete m id) id1 = if id1 = id then none else mapGet m id1 := by
  induction m with
  | nil => simp [mapDelete, mapGet]
  | cons p rest ih =>
      obtain ⟨k, v⟩ := p
      by_cases hk : k = id
      · subst hk
        by_cases h1 : id1 = k
        · subst h1; simpa [mapDelete, mapGet] using ih
        · simpa [mapDelete, mapGet, h1, Ne.symm h1] using ih
      · by_cases h1 : id1 = k
        · subst h1
          have h2 : ¬id1 = id := fun h => hk h
          simp [mapDelete, mapGet, hk, h2]
        · simp [mapDelete, mapGet, hk, Ne.symm h1, ih]

theorem mapGet_mapUpdate (m : JobMap) (id : String) (v : DockerJob) (id1 : String) :
    mapGet (mapUpdate m id v) id1 = if id1 = id then some v else mapGet m id1 := by
  by_cases h : id1 = id
  · subst h; simp [mapUpdate, mapGet]
  · simp [mapUpdate, mapGet, Ne.symm h, h, mapGet_mapDelete]

theorem mem_mapKeys (m : JobMap) (id : String) :
    id ∈ mapKeys m ↔ (mapGet m id).isSome := by
  induction m with
  | nil => simp [mapKeys, mapGet]
  | cons p rest ih =>
      obtain ⟨k, v⟩ := p
      by_cases h : k = id
      · subst h; simp [mapKeys, mapGet]
      · rw [show mapKeys ((k, v) :: rest) = k :: mapKeys rest from rfl, List.mem_cons]
        simp [mapGet, h, Ne.symm h, ih]

theorem mapGet_pairList (g : String → DockerJob) (l : List String) (id : String) :
    mapGet (l.map (fun i => (i, g i))) id = if id ∈ l then some (g id) else none := by
  induction l with
  | nil => simp [mapGet]
  | cons a l ih =>
      by_cases h : a = id
      · subst h; simp [mapGet]
      · simp [mapGet, h, ih, Ne.symm h]

theorem mapGet_mapRefresh (m : JobMap) (l : List String) (id : String) :
    mapGet (mapRefresh m l) id =
      if id ∈ l then some ((mapGet m id).getD (zeroJob id)) else none := by
  unfold mapRefresh
  rw [mapGet_pairList]
  simp [List.mem_dedup]

theorem mem_mapKeys_mapRefresh (m : JobMap) (l : List String) (id : String) :
    id ∈ mapKeys (mapRefresh m l) ↔ id ∈ l := by
  rw [mem_mapKeys, mapGet_mapRefresh]
  by_cases h : id ∈ l <;> simp [h]

/-! Characterization of one classification step. -/

/-- Identities a classification pass processes: every reported id whose
twelve-character slice differs from the worker's hostname. -/
def procIds (hostname : String) : List Container → List String
  | [] => []
  | c :: cs =>
      if c.id.take 12 ≠ hostname then c.id :: procIds hostname cs
      else procIds hostname cs

theorem mem_procIds (hostname : String) (cs : List Container) (id : String) :
    id ∈ procIds hostname cs ↔ ∃ c ∈ cs, c.id = id ∧ c.id.take 12 ≠ hostname := by
  induction cs with
  | nil => simp [procIds]
  | cons c cs ih =>
      by_cases hh : c.id.take 12 = hostname
      · rw [show procIds hostname (c :: cs) = procIds hostname cs by
              simp [procIds, hh], ih]
        constructor
        · rintro ⟨c1, hc1, rfl, hne⟩
          exact ⟨c1, List.mem_cons_of_mem c hc1, rfl, hne⟩
        · rintro ⟨c1, hc1, rfl, hne⟩
          rcases List.mem_cons.mp hc1 with h | h
          · subst h; exact absurd hh hne
          · exact ⟨c1, h, rfl, hne⟩
      · rw [show procIds hostname (c :: cs) = c.id :: procIds hostname cs by
              simp [procIds, hh], List.mem_cons, ih]
        constructor
        · rintro (rfl | ⟨c1, hc1, rfl, hne⟩)
          · exact ⟨c, List.mem_cons_self c cs, rfl, hh⟩
          · exact ⟨c1, List.mem_cons_of_mem c hc1, rfl, hne⟩
        · rintro ⟨c1, hc1, rfl, hne⟩
          rcases List.mem_cons.mp hc1 with h | h
          · subst h; exact Or.inl rfl
          · exact Or.inr ⟨c1, h, rfl, hne⟩

theorem classifyStep_short (now : Int) (st : WorkerState) (ids : List String)
    (c : Container) (hlen : ¬12 ≤ c.id.length) :
    classifyStep now st ids c = .error () := by
  simp [classifyStep, hlen]

theorem classifyStep_self (now : Int) (st : WorkerState) (ids : List String)
    (c : Container) (hlen : 12 ≤ c.id.length) (hh : c.id.take 12 = st.hostname) :
    classifyStep now st ids c = .ok (st, ids) := by
  simp [classifyStep, hlen, hh]

theorem classifyStep_orphan (now : Int) (st : WorkerState) (ids : List String)
    (c : Container) (hlen : 12 ≤ c.id.length) (hh : c.id.take 12 ≠ st.hostname)
    (hget : mapGet st.runningJobs c.id = none) :
    classifyStep now st ids c =
      .ok ({ st with
              jobsToKill := mapUpdate st.jobsToKill c.id (orphanRecord now c.id),
              runningJobs := mapUpdate st.runningJobs c.id (orphanRecord now c.id) },
           ids ++ [c.id]) := by
  simp [classifyStep, hlen, hh, hget, orphanRecord, DockerJob.id]

theorem classifyStep_tracked (now : Int) (st : WorkerState) (ids : List String)
    (c : Container) (r : DockerJob) (hlen : 12 ≤ c.id.length)
    (hh : c.id.take 12 ≠ st.hostname)
    (hget : mapGet st.runningJobs c.id = some r) :
    classifyStep now st ids c =
      .ok ((if r.baseJob.duration ≤ now - r.baseJob.startTime then
              { st with jobsToKill := mapUpdate st.jobsToKill c.id (trackedCopy r c now) }
            else st),
           ids ++ [c.id]) := by
  simp [classifyStep, hlen, hh, hget, trackedCopy, DockerJob.updateTotalRunTime, DockerJob.id]

/-! Facts about a whole classification phase. -/

theorem classifyLoop_hostname_ids (now : Int) (cs : List Container) :
    ∀ st ids0 st1 ids1, classifyLoop now cs st ids0 = .ok (st1, ids1) →
      st1.hostname = st.hostname ∧ ids1 = ids0 ++ procIds st.hostname cs := by
  induction cs with
  | nil =>
      intro st ids0 st1 ids1 h
      simp only [classifyLoop, Except.ok.injEq, Prod.mk.injEq] at h
      obtain ⟨h1, h2⟩ := h
      subst h1; subst h2
      simp [procIds]
  | cons c cs ih =>
      intro st ids0 st1 ids1 h
      simp only [classifyLoop] at h
      by_cases hlen : 12 ≤ c.id.length
      · by_cases hh : c.id.take 12 = st.hostname
        · rw [classifyStep_self now st ids0 c hlen hh] at h
          obtain ⟨h1, h2⟩ := ih st ids0 st1 ids1 h
          refine ⟨h1, ?_⟩
          rw [h2]
          simp [procIds, hh]
        · cases hget : mapGet st.runningJobs c.id with
          | none =>
              rw [classifyStep_orphan now st ids0 c hlen hh hget] at h
              obtain ⟨h1, h2⟩ := ih _ _ _ _ h
              refine ⟨h1, ?_⟩
              rw [h2]
              simp [procIds, hh]
          | some r =>
              rw [classifyStep_tracked now st ids0 c r hlen hh hget] at h
              by_cases hexp : r.baseJob.duration ≤ now - r.baseJob.startTime
              · rw [if_pos hexp] at h
                obtain ⟨h1, h2⟩ := ih _ _ _ _ h
                refine ⟨h1, ?_⟩
                rw [h2]
                simp [procIds, hh]
              · rw [if_neg hexp] at h
                obtain ⟨h1, h2⟩ := ih _ _ _ _ h
                refine ⟨h1, ?_⟩
                rw [h2]
                simp [procIds, hh]
      · rw [classifyStep_short now st ids0 c hlen] at h
        simp at h

theorem classifyLoop_tracked_get (now : Int) (cs : List Container) :
    ∀ st ids0 st1 ids1, classifyLoop now cs st ids0 = .ok (st1, ids1) →
    ∀ id r, mapGet st.runningJobs id = some r → mapGet st1.runningJobs id = some r := by
  induction cs with
  | nil =>
      intro st ids0 st1 ids1 h id r hr
      simp only [classifyLoop, Except.ok.injEq, Prod.mk.injEq] at h
      obtain ⟨h1, h2⟩ := h
      subst h1
      exact hr
  | cons c cs ih =>
      intro st ids0 st1 ids1 h id r hr
      simp only [classifyLoop] at h
      by_cases hlen : 12 ≤ c.id.length
      · by_cases hh : c.id.take 12 = st.hostname
        · rw [classifyStep_self now st ids0 c hlen hh] at h
          exact ih st ids0 st1 ids1 h id r hr
        · cases hget : mapGet st.runningJobs c.id with
          | none =>
              rw [classifyStep_orphan now st ids0 c hlen hh hget] at h
              refine ih _ _ _ _ h id r ?_
              have hne : id ≠ c.id := by
                intro he
                rw [he, hget] at hr
                exact Option.noConfusion hr
              simpa [mapGet_mapUpdate, hne] using hr
          | some r1 =>
              rw [classifyStep_tracked now st ids0 c r1 hlen hh hget] at h
              by_cases hexp : r1.baseJob.duration ≤ now - r1.baseJob.startTime
              · rw [if_pos hexp] at h
                exact ih _ _ _ _ h id r hr
              · rw [if_neg hexp] at h
                exact ih _ _ _ _ h id r hr
      · rw [classifyStep_short now st ids0 c hlen] at h
        simp at h

theorem classifyLoop_kill_isSome (now : Int) (cs : List Container) :
    ∀ st ids0 st1 ids1, classifyLoop now cs st ids0 = .ok (st1, ids1) →
    ∀ id, (mapGet st.jobsToKill id).isSome → (mapGet st1.jobsToKill id).isSome := by
  induction cs with
  | nil =>
      intro st ids0 st1 ids1 h id hk
      simp only [classifyLoop, Except.ok.injEq, Prod.mk.injEq] at h
      obtain ⟨h1, h2⟩ := h
      subst h1
      exact hk
  | cons c cs ih =>
      intro st ids0 st1 ids1 h id hk
      simp only [classifyLoop] at h
      by_cases hlen : 12 ≤ c.id.length
      · by_cases hh : c.id.take 12 = st.hostname
        · rw [classifyStep_self now st ids0 c hlen hh] at h
          exact ih st ids0 st1 ids1 h id hk
        · cases hget : mapGet st.runningJobs c.id with
          | none =>
              rw [classifyStep_orphan now st ids0 c hlen hh hget] at h
              refine ih _ _ _ _ h id ?_
              by_cases hne : id = c.id <;> simp [mapGet_mapUpdate, hne, hk]
          | some r1 =>
              rw [classifyStep_tracked now st ids0 c r1 hlen hh hget] at h
              by_cases hexp : r1.baseJob.duration ≤ now - r1.baseJob.startTime
              · rw [if_pos hexp] at h
                refine ih _ _ _ _ h id ?_
                by_cases hne : id = c.id <;> simp [mapGet_mapUpdate, hne, hk]
              · rw [if_neg hexp] at h
                exact ih _ _ _ _ h id hk
      · rw [classifyStep_short now st ids0 c hlen] at h
        simp at h

theorem classifyLoop_outside (now : Int) (cs : List Container) :
    ∀ st ids0 st1 ids1, classifyLoop now cs st ids0 = .ok (st1, ids1) →
    ∀ id, id ∉ cs.map Container.id →
      mapGet st1.runningJobs id = mapGet st.runningJobs id ∧
      mapGet st1.jobsToKill id = mapGet st.jobsToKill id := by
  induction cs with
  | nil =>
      intro st ids0 st1 ids1 h id _
      simp only [classifyLoop, Except.ok.injEq, Prod.mk.injEq] at h
      obtain ⟨h1, h2⟩ := h
      subst h1
      exact ⟨rfl, rfl⟩
  | cons c cs ih =>
      intro st ids0 st1 ids1 h id hid
      have hne : id ≠ c.id := by
        intro he
        exact hid (by simp [he])
      have hid1 : id ∉ cs.map Container.id := by
        intro hmem
        exact hid (by simp [hmem])
      simp only [classifyLoop] at h
      by_cases hlen : 12 ≤ c.id.length
      · by_cases hh : c.id.take 12 = st.hostname
        · rw [classifyStep_self now st ids0 c hlen hh] at h
          exact ih st ids0 st1 ids1 h id hid1
        · cases hget : mapGet st.runningJobs c.id with
          | none =>
              rw [classifyStep_orphan now st ids0 c hlen hh hget] at h
              obtain ⟨h1, h2⟩ := ih _ _ _ _ h id hid1
              rw [h1, h2]
              simp [mapGet_mapUpdate, hne]
          | some r1 =>
              rw [classifyStep_tracked now st ids0 c r1 hlen hh hget] at h
              by_cases hexp : r1.baseJob.duration ≤ now - r1.baseJob.startTime
              · rw [if_pos hexp] at h
                obtain ⟨h1, h2⟩ := ih _ _ _ _ h id hid1
                rw [h1, h2]
                simp [mapGet_mapUpdate, hne]
              · rw [if_neg hexp] at h
                exact ih _ _ _ _ h id hid1
      · rw [classifyStep_short now st ids0 c hlen] at h
        simp at h

theorem classifyLoop_total (now : Int) (cs : List Container) :
    ∀ st ids0, (∀ c ∈ cs, 12 ≤ c.id.length) →
      ∃ st1 ids1, classifyLoop now cs st ids0 = .ok (st1, ids1) := by
  induction cs with
  | nil =>
      intro st ids0 _
      exact ⟨st, ids0, rfl⟩
  | cons c cs ih =>
      intro st ids0 hlen
      have hc : 12 ≤ c.id.length := hlen c (List.mem_cons_self c cs)
      have hrest : ∀ c1 ∈ cs, 12 ≤ c1.id.length :=
        fun c1 h1 => hlen c1 (List.mem_cons_of_mem c h1)
      by_cases hh : c.id.take 12 = st.hostname
      · obtain ⟨st1, ids1, h1⟩ := ih st ids0 hrest
        exact ⟨st1, ids1, by
          simp only [classifyLoop]
          rw [classifyStep_self now st ids0 c hc hh]
          exact h1⟩
      · cases hget : mapGet st.runningJobs c.id with
        | none =>
            obtain ⟨st1, ids1, h1⟩ := ih _ (ids0 ++ [c.id]) hrest
            exact ⟨st1, ids1, by
              simp only [classifyLoop]
              rw [classifyStep_orphan now st ids0 c hc hh hget]
              exact h1⟩
        | some r =>
            by_cases hexp : r.baseJob.duration ≤ now - r.baseJob.startTime
            · obtain ⟨st1, ids1, h1⟩ := ih _ (ids0 ++ [c.id]) hrest
              exact ⟨st1, ids1, by
                simp only [classifyLoop]
                rw [classifyStep_tracked now st ids0 c r hc hh hget, if_pos hexp]
                exact h1⟩
            · obtain ⟨st1, ids1, h1⟩ := ih st (ids0 ++ [c.id]) hrest
              exact ⟨st1, ids1, by
                simp only [classifyLoop]
                rw [classifyStep_tracked now st ids0 c r hc hh hget, if_neg hexp]
                exact h1⟩

theorem classifyLoop_append (now : Int) (l1 l2 : List Container) :
    ∀ st ids0, classifyLoop now (l1 ++ l2) st ids0 =
      match classifyLoop now l1 st ids0 with
      | .error e => .error e
      | .ok (st1, ids1) => classifyLoop now l2 st1 ids1 := by
  induction l1 with
  | nil => intro st ids0; rfl
  | cons c l1 ih =>
      intro st ids0
      simp only [List.cons_append, classifyLoop]
      cases hstep : classifyStep now st ids0 c with
      | error e => rfl
      | ok p =>
          obtain ⟨st1, ids1⟩ := p
          exact ih st1 ids1

/-! Facts about StopJob and the kill processor. -/

theorem stopJob_fst (stopOk : String → Bool) (now : Int) (st : WorkerState) (id : String) :
    (stopJob stopOk now st id).1 = st := by
  unfold stopJob
  cases mapGet st.runningJobs id with
  | none => rfl
  | some ctr => by_cases h : stopOk id = true <;> simp [h]

theorem stopJob_ok_inv (stopOk : String → Bool) (now : Int) (st : WorkerState)
    (id : String) (j : DockerJob) (h : (stopJob stopOk now st id).2 = .ok j) :
    (mapGet st.runningJobs id).isSome ∧ stopOk id = true := by
  unfold stopJob at h
  cases hg : mapGet st.runningJobs id with
  | none => rw [hg] at h; simp at h
  | some ctr =>
      rw [hg] at h
      by_cases hs : stopOk id = true
      · exact ⟨by simp, hs⟩
      · simp [hs] at h

theorem stopJob_error_inv (stopOk : String → Bool) (now : Int) (st : WorkerState)
    (id : String) (e : String) (h : (stopJob stopOk now st id).2 = .error e) :
    mapGet st.runningJobs id = none ∨ stopOk id = false := by
  cases hg : mapGet st.runningJobs id with
  | none => exact Or.inl rfl
  | some ctr =>
      unfold stopJob at h
      rw [hg] at h
      by_cases hs : stopOk id = true
      · simp [hs] at h
      · exact Or.inr (by simpa using hs)

theorem killLoop_run_none (stopOk : String → Bool) (now : Int) (l : List String) :
    ∀ st id, mapGet st.runningJobs id = none →
      mapGet (killLoop stopOk now l st).runningJobs id = none := by
  induction l with
  | nil => intro st id h; exact h
  | cons a rest ih =>
      intro st id h
      simp only [killLoop]
      cases hs : (stopJob stopOk now st a).2 with
      | error e => exact ih st id h
      | ok j =>
          refine ih _ id ?_
          by_cases he : id = a <;> simp [deleteBoth, mapGet_mapDelete, he, h]

theorem killLoop_kill_none (stopOk : String → Bool) (now : Int) (l : List String) :
    ∀ st id, mapGet st.jobsToKill id = none →
      mapGet (killLoop stopOk now l st).jobsToKill id = none := by
  induction l with
  | nil => intro st id h; exact h
  | cons a rest ih =>
      intro st id h
      simp only [killLoop]
      cases hs : (stopJob stopOk now st a).2 with
      | error e => exact ih st id h
      | ok j =>
          refine ih _ id ?_
          by_cases he : id = a <;> simp [deleteBoth, mapGet_mapDelete, he, h]

theorem killLoop_not_mem (stopOk : String → Bool) (now : Int) (l : List String) :
    ∀ st id, id ∉ l →
      mapGet (killLoop stopOk now l st).runningJobs id = mapGet st.runningJobs id ∧
      mapGet (killLoop stopOk now l st).jobsToKill id = mapGet st.jobsToKill id := by
  induction l with
  | nil => intro st id _; exact ⟨rfl, rfl⟩
  | cons a rest ih =>
      intro st id hid
      have hne : id ≠ a := fun he => hid (by simp [he])
      have hrest : id ∉ rest := fun hm => hid (by simp [hm])
      simp only [killLoop]
      cases hs : (stopJob stopOk now st a).2 with
      | error e => exact ih st id hrest
      | ok j =>
          obtain ⟨h1, h2⟩ := ih (deleteBoth st a) id hrest
          rw [h1, h2]
          simp [deleteBoth, mapGet_mapDelete, hne]

theorem killLoop_fail_preserved (stopOk : String → Bool) (now : Int) (l : List String) :
    ∀ st id, (mapGet st.runningJobs id = none ∨ stopOk id = false) →
      mapGet (killLoop stopOk now l st).runningJobs id = mapGet st.runningJobs id ∧
      mapGet (killLoop stopOk now l st).jobsToKill id = mapGet st.jobsToKill id := by
  induction l with
  | nil => intro st id _; exact ⟨rfl, rfl⟩
  | cons a rest ih =>
      intro st id hfail
      simp only [killLoop]
      cases hs : (stopJob stopOk now st a).2 with
      | error e => exact ih st id hfail
      | ok j =>
          by_cases hne : id = a
          · subst hne
            obtain ⟨hsome, hok⟩ := stopJob_ok_inv stopOk now st id j hs
            rcases hfail with hnone | hko
            · rw [hnone] at hsome; simp at hsome
            · rw [hko] at hok; simp at hok
          · have hfail2 :
                mapGet (deleteBoth st a).runningJobs id = none ∨ stopOk id = false := by
              rcases hfail with hnone | hko
              · exact Or.inl (by simp [deleteBoth, mapGet_mapDelete, hne, hnone])
              · exact Or.inr hko
            obtain ⟨h1, h2⟩ := ih (deleteBoth st a) id hfail2
            rw [h1, h2]
            simp [deleteBoth, mapGet_mapDelete, hne]

theorem killLoop_success (stopOk : String → Bool) (now : Int) (l : List String) :
    ∀ st id, id ∈ l → (mapGet st.runningJobs id).isSome → stopOk id = true →
      mapGet (killLoop stopOk now l st).runningJobs id = none ∧
      mapGet (killLoop stopOk now l st).jobsToKill id = none := by
  induction l with
  | nil => intro st id h; simp at h
  | cons a rest ih =>
      intro st id hmem hsome hok
      simp only [killLoop]
      by_cases hne : id = a
      · subst hne
        obtain ⟨r, hr⟩ := Option.isSome_iff_exists.mp hsome
        rw [show (stopJob stopOk now st id).2 = .ok (r.updateTotalRunTime now) from by
              unfold stopJob; rw [hr]; simp [hok]]
        constructor
        · exact killLoop_run_none stopOk now rest _ id
            (by simp [deleteBoth, mapGet_mapDelete])
        · exact killLoop_kill_none stopOk now rest _ id
            (by simp [deleteBoth, mapGet_mapDelete])
      · have hmem1 : id ∈ rest := by
          rcases List.mem_cons.mp hmem with h | h
          · exact absurd h hne
          · exact h
        cases hs : (stopJob stopOk now st a).2 with
        | error e => exact ih st id hmem1 hsome hok
        | ok j =>
            refine ih (deleteBoth st a) id hmem1 ?_ hok
            simpa [deleteBoth, mapGet_mapDelete, hne] using hsome

/-! Claim theorems. -/

/-- C1: after every reconciliation pass, the registry's key set equals exactly
the set of container identities reported live by the runtime and processed in
that pass (the worker's own infrastructure container, recognized by the
twelve-character id slice matching the hostname, excluded): for any prior
registry and kill-set contents, `refresh(liveIds)` leaves the registry keys
equal to the processed live ids as sets. -/
theorem c1_registry_keys_are_live (stopOk : String → Bool) (now : Int)
    (st : WorkerState) (cs : List Container) (st1 : WorkerState)
    (h : updateGetRunningJobs stopOk now st cs = .ok st1) (id : String) :
    id ∈ mapKeys st1.runningJobs ↔
      ∃ c ∈ cs, c.id = id ∧ c.id.take 12 ≠ st.hostname := by
  unfold updateGetRunningJobs at h
  cases hcl : classifyLoop now cs st [] with
  | error e => rw [hcl] at h; simp at h
  | ok p =>
      obtain ⟨stA, ids⟩ := p
      rw [hcl] at h
      simp only [Except.ok.injEq] at h
      subst h
      have hids : ids = procIds st.hostname cs := by
        simpa using (classifyLoop_hostname_ids now cs st [] stA ids hcl).2
      simp only [mem_mapKeys_mapRefresh, hids]
      exact mem_procIds st.hostname cs id

def c1wStop : String → Bool := fun _ => false

def c1wSt : WorkerState :=
  { hostname := "hhhhhhhhhhhh",
    runningJobs := [("stalestalest", zeroJob "stalestalest")],
    jobsToKill := [] }

def c1wCs : List Container := [{ id := "aaaaaaaaaaaa" }]

def c1wRes : WorkerState :=
  match updateGetRunningJobs c1wStop 0 c1wSt c1wCs with
  | .ok s => s
  | .error _ => c1wSt

/-- Witness for C1: a concrete pass over a registry holding only a stale
entry and a runtime reporting one fresh container. -/
theorem c1_registry_keys_are_live_witness :
    "aaaaaaaaaaaa" ∈ mapKeys c1wRes.runningJobs ↔
      ∃ c ∈ c1wCs, c.id = "aaaaaaaaaaaa" ∧ c.id.take 12 ≠ c1wSt.hostname :=
  c1_registry_keys_are_live c1wStop 0 c1wSt c1wCs c1wRes (by decide) "aaaaaaaaaaaa"

def c2xStop : String → Bool := fun _ => true

def c2xSt : WorkerState :=
  { hostname := "hhhhhhhhhhhh", runningJobs := [], jobsToKill := [] }

def c2xCs : List Container := [{ id := "bbbbbbbbbbbb" }]

def c2xRes : WorkerState :=
  match updateGetRunningJobs c2xStop 0 c2xSt c2xCs with
  | .ok s => s
  | .error _ => c2xSt

/-- Counterexample to C2 as stated: an identity unknown to the registry is
orphaned, but when its in-pass stop command succeeds the kill processor —
which `updateGetRunningJobs` runs before refreshing — removes it again, so
after the pass the identity is a registry key yet absent from the kill set. -/
theorem c2_counterexample :
    mapGet c2xSt.runningJobs "bbbbbbbbbbbb" = none ∧
    updateGetRunningJobs c2xStop 0 c2xSt c2xCs = .ok c2xRes ∧
    "bbbbbbbbbbbb" ∈ mapKeys c2xRes.runningJobs ∧
    "bbbbbbbbbbbb" ∉ mapKeys c2xRes.jobsToKill := by decide

/-- C2 amended: an unknown live identity is classified orphan — the
classification phase installs a sentinel-budget record in both the registry
and the kill set — and after the full pass (which runs the kill processor
before pruning) the identity is a registry key, while it remains in the kill
set exactly when its stop command failed. -/
theorem c2_orphan_classification (stopOk : String → Bool) (now : Int)
    (st : WorkerState) (cs : List Container) (stA : WorkerState) (ids : List String)
    (st1 : WorkerState)
    (hcl : classifyLoop now cs st [] = .ok (stA, ids))
    (hup : updateGetRunningJobs stopOk now st cs = .ok st1)
    (c : Container) (hc : c ∈ cs)
    (hself : c.id.take 12 ≠ st.hostname)
    (hunk : mapGet st.runningJobs c.id = none)
    (hnd : (cs.map Container.id).Nodup) :
    mapGet stA.runningJobs c.id = some (orphanRecord now c.id) ∧
    mapGet stA.jobsToKill c.id = some (orphanRecord now c.id) ∧
    c.id ∈ mapKeys st1.runningJobs ∧
    (c.id ∈ mapKeys st1.jobsToKill ↔ stopOk c.id = false) := by
  obtain ⟨l1, l2, hsplit⟩ := List.append_of_mem hc
  subst hsplit
  rw [List.map_append, List.map_cons] at hnd
  obtain ⟨hnd1, hnd2, hdisj⟩ := List.nodup_append.mp hnd
  have hnotl1 : c.id ∉ l1.map Container.id := fun hmem =>
    hdisj hmem (List.mem_cons_self c.id (l2.map Container.id))
  have hnotl2 : c.id ∉ l2.map Container.id := (List.nodup_cons.mp hnd2).1
  rw [classifyLoop_append] at hcl
  cases hpre : classifyLoop now l1 st [] with
  | error e => rw [hpre] at hcl; simp at hcl
  | ok p =>
      obtain ⟨stP, idsP⟩ := p
      rw [hpre] at hcl
      have hhostP : stP.hostname = st.hostname :=
        (classifyLoop_hostname_ids now l1 st [] stP idsP hpre).1
      have hgetP : mapGet stP.runningJobs c.id = none := by
        rw [(classifyLoop_outside now l1 st [] stP idsP hpre c.id hnotl1).1]
        exact hunk
      simp only [classifyLoop] at hcl
      by_cases hlen : 12 ≤ c.id.length
      · rw [classifyStep_orphan now stP idsP c hlen (by rw [hhostP]; exact hself) hgetP]
          at hcl
        have hpost := classifyLoop_outside now l2 _ _ stA ids hcl c.id hnotl2
        have horun : mapGet stA.runningJobs c.id = some (orphanRecord now c.id) := by
          rw [hpost.1]
          simp [mapGet_mapUpdate]
        have hokill : mapGet stA.jobsToKill c.id = some (orphanRecord now c.id) := by
          rw [hpost.2]
          simp [mapGet_mapUpdate]
        refine ⟨horun, hokill, ?_, ?_⟩
        all_goals {
          unfold updateGetRunningJobs at hup
          rw [classifyLoop_append, hpre] at hup
          simp only [classifyLoop] at hup
          rw [classifyStep_orphan now stP idsP c hlen (by rw [hhostP]; exact hself) hgetP,
            hcl] at hup
          simp only [Except.ok.injEq] at hup
          subst hup
          first
          | -- registry key after the pass
            { rw [mem_mapKeys_mapRefresh]
              have hids : ids = procIds st.hostname (l1 ++ c :: l2) := by
                simpa using
                  (classifyLoop_hostname_ids now (l1 ++ c :: l2) st [] stA ids (by
                    rw [classifyLoop_append, hpre]
                    simp only [classifyLoop]
                    rw [classifyStep_orphan now stP idsP c hlen
                      (by rw [hhostP]; exact hself) hgetP]
                    exact hcl)).2
              rw [hids, mem_procIds]
              exact ⟨c, List.mem_append_right l1 (List.mem_cons_self c l2), rfl, hself⟩ }
          | -- kill-set membership after the pass
            { cases hko : stopOk c.id
              · obtain ⟨h1, h2⟩ := killLoop_fail_preserved stopOk now
                  (mapKeys stA.jobsToKill) stA c.id (Or.inr hko)
                unfold killJobs
                rw [mem_mapKeys, h2, hokill]
                simp
              · obtain ⟨h1, h2⟩ := killLoop_success stopOk now
                  (mapKeys stA.jobsToKill) stA c.id
                  ((mem_mapKeys stA.jobsToKill c.id).mpr (by rw [hokill]; rfl))
                  (by rw [horun]; rfl) hko
                unfold killJobs
                rw [mem_mapKeys, h2]
                simp }
        }
      · rw [classifyStep_short now stP idsP c hlen] at hcl
        simp at hcl

def c2wStop : String → Bool := fun _ => false

def c2wSt : WorkerState :=
  { hostname := "hhhhhhhhhhhh", runningJobs := [], jobsToKill := [] }

def c2wCs : List Container := [{ id := "cccccccccccc" }]

def c2wClassify : WorkerState × List String :=
  match classifyLoop 0 c2wCs c2wSt [] with
  | .ok p => p
  | .error _ => (c2wSt, [])

def c2wRes : WorkerState :=
  match updateGetRunningJobs c2wStop 0 c2wSt c2wCs with
  | .ok s => s
  | .error _ => c2wSt

/-- Witness for the amended C2: one orphan whose stop command fails, so it
survives the in-pass kill processor in both maps. -/
theorem c2_orphan_classification_witness :
    mapGet c2wClassify.1.runningJobs "cccccccccccc" =
      some (orphanRecord 0 "cccccccccccc") ∧
    mapGet c2wClassify.1.jobsToKill "cccccccccccc" =
      some (orphanRecord 0 "cccccccccccc") ∧
    "cccccccccccc" ∈ mapKeys c2wRes.runningJobs ∧
    ("cccccccccccc" ∈ mapKeys c2wRes.jobsToKill ↔ c2wStop "cccccccccccc" = false) :=
  c2_orphan_classification c2wStop 0 c2wSt c2wCs c2wClassify.1 c2wClassify.2 c2wRes
    (by decide) (by decide) { id := "cccccccccccc" } (by decide) (by decide) (by decide)
    (by decide)

def c3xSt : WorkerState :=
  { hostname := "hhhhhhhhhhhh",
    runningJobs := [("dddddddddddd",
      { baseJob := { startTime := 0, totalRunTime := 0, duration := 10 },
        container := { id := "dddddddddddd" } })],
    jobsToKill := [] }

def c3xCs : List Container := [{ id := "dddddddddddd" }]

def c3xRes : WorkerState :=
  match updateGetRunningJobs (fun _ => true) 5 c3xSt c3xCs with
  | .ok s => s
  | .error _ => c3xSt

/-- Counterexample to C3 as stated: a tracked live job with startTime 0 and
budget 10 is reconciled at now = 5; the pass recomputes elapsed time 5 on a
local copy, but the registry entry after the pass still carries the stale
totalRunTime 0, not the recomputed 5 = now - startTime. -/
theorem c3_counterexample :
    updateGetRunningJobs (fun _ => true) 5 c3xSt c3xCs = .ok c3xRes ∧
    mapGet c3xRes.runningJobs "dddddddddddd" =
      some { baseJob := { startTime := 0, totalRunTime := 0, duration := 10 },
             container := { id := "dddddddddddd" } } ∧
    (0 : Int) ≠ 5 - 0 := by decide

/-- C3 amended: each pass recomputes a tracked record's totalRunTime as
elapsed-since-start on a local copy only: the copy decides the budget check
and is what lands in the kill set when expired, while the registry entry is
never written back — after both the classification phase and the whole pass
(for a non-expired, not-already-killed job) the registry still holds the old
record. -/
theorem c3_recompute_on_copy (stopOk : String → Bool) (now : Int)
    (st : WorkerState) (cs : List Container) (stA : WorkerState) (ids : List String)
    (st1 : WorkerState)
    (hcl : classifyLoop now cs st [] = .ok (stA, ids))
    (hup : updateGetRunningJobs stopOk now st cs = .ok st1)
    (c : Container) (hc : c ∈ cs) (r : DockerJob)
    (hr : mapGet st.runningJobs c.id = some r)
    (hself : c.id.take 12 ≠ st.hostname)
    (hnd : (cs.map Container.id).Nodup) :
    mapGet stA.runningJobs c.id = some r ∧
    (trackedCopy r c now).baseJob.totalRunTime = now - r.baseJob.startTime ∧
    (r.baseJob.duration ≤ now - r.baseJob.startTime →
      mapGet stA.jobsToKill c.id = some (trackedCopy r c now)) ∧
    (now - r.baseJob.startTime < r.baseJob.duration →
      mapGet st.jobsToKill c.id = none →
      mapGet st1.runningJobs c.id = some r) := by
  obtain ⟨l1, l2, hsplit⟩ := List.append_of_mem hc
  subst hsplit
  rw [List.map_append, List.map_cons] at hnd
  obtain ⟨hnd1, hnd2, hdisj⟩ := List.nodup_append.mp hnd
  have hnotl1 : c.id ∉ l1.map Container.id := fun hmem =>
    hdisj hmem (List.mem_cons_self c.id (l2.map Container.id))
  have hnotl2 : c.id ∉ l2.map Container.id := (List.nodup_cons.mp hnd2).1
  have htrack : mapGet stA.runningJobs c.id = some r :=
    classifyLoop_tracked_get now (l1 ++ c :: l2) st [] stA ids hcl c.id r hr
  refine ⟨htrack, rfl, ?_, ?_⟩
  all_goals {
    rw [classifyLoop_append] at hcl
    cases hpre : classifyLoop now l1 st [] with
    | error e => rw [hpre] at hcl; simp at hcl
    | ok p =>
        obtain ⟨stP, idsP⟩ := p
        rw [hpre] at hcl
        have hhostP : stP.hostname = st.hostname :=
          (classifyLoop_hostname_ids now l1 st [] stP idsP hpre).1
        have houtP := classifyLoop_outside now l1 st [] stP idsP hpre c.id hnotl1
        have hgetP : mapGet stP.runningJobs c.id = some r := by rw [houtP.1]; exact hr
        simp only [classifyLoop] at hcl
        by_cases hlen : 12 ≤ c.id.length
        · rw [classifyStep_tracked now stP idsP c r hlen (by rw [hhostP]; exact hself)
            hgetP] at hcl
          first
          | -- expired: the recomputed copy is what enters the kill set
            { intro hexp
              rw [if_pos hexp] at hcl
              have hpost := classifyLoop_outside now l2 _ _ stA ids hcl c.id hnotl2
              rw [hpost.2]
              simp [mapGet_mapUpdate] }
          | -- not expired and not already pending kill: the registry entry
            -- survives the whole pass unchanged
            { intro hexp hkn
              rw [if_neg (by exact fun hco => absurd hexp (not_lt.mpr hco))] at hcl
              have hpost := classifyLoop_outside now l2 _ _ stA ids hcl c.id hnotl2
              have hkillA : mapGet stA.jobsToKill c.id = none := by
                rw [hpost.2, houtP.2]
                exact hkn
              unfold updateGetRunningJobs at hup
              rw [classifyLoop_append, hpre] at hup
              simp only [classifyLoop] at hup
              rw [classifyStep_tracked now stP idsP c r hlen (by rw [hhostP]; exact hself)
                hgetP, if_neg (by exact fun hco => absurd hexp (not_lt.mpr hco)), hcl]
                at hup
              simp only [Except.ok.injEq] at hup
              subst hup
              have hnk : c.id ∉ mapKeys stA.jobsToKill := by
                rw [mem_mapKeys, hkillA]
                simp
              have hkeep := killLoop_not_mem stopOk now (mapKeys stA.jobsToKill) stA c.id hnk
              have hrun2 : mapGet (killJobs stopOk now stA).runningJobs c.id = some r := by
                unfold killJobs
                rw [hkeep.1]
                exact htrack
              have hids : ids = procIds st.hostname (l1 ++ c :: l2) := by
                simpa using
                  (classifyLoop_hostname_ids now (l1 ++ c :: l2) st [] stA ids (by
                    rw [classifyLoop_append, hpre]
                    simp only [classifyLoop]
                    rw [classifyStep_tracked now stP idsP c r hlen
                      (by rw [hhostP]; exact hself) hgetP,
                      if_neg (by exact fun hco => absurd hexp (not_lt.mpr hco))]
                    exact hcl)).2
              have hmemids : c.id ∈ ids := by
                rw [hids, mem_procIds]
                exact ⟨c, List.mem_append_right l1 (List.mem_cons_self c l2), rfl, hself⟩
              rw [show ({ killJobs stopOk now stA with
                    runningJobs :=
                      mapRefresh (killJobs stopOk now stA).runningJobs ids } :
                  WorkerState).runningJobs =
                    mapRefresh (killJobs stopOk now stA).runningJobs ids from rfl]
              rw [mapGet_mapRefresh, if_pos hmemids, hrun2]
              rfl }
        · rw [classifyStep_short now stP idsP c hlen] at hcl
          simp at hcl
  }

def c3wClassify : WorkerState × List String :=
  match classifyLoop 5 c3xCs c3xSt [] with
  | .ok p => p
  | .error _ => (c3xSt, [])

def c3wRec : DockerJob :=
  { baseJob := { startTime := 0, totalRunTime := 0, duration := 10 },
    container := { id := "dddddddddddd" } }

/-- Witness for the amended C3: the concrete non-expired job of the
counterexample keeps its untouched record through classification and through
the whole pass. -/
theorem c3_recompute_on_copy_witness :
    mapGet c3wClassify.1.runningJobs "dddddddddddd" = some c3wRec ∧
    mapGet c3xRes.runningJobs "dddddddddddd" = some c3wRec :=
  have h := c3_recompute_on_copy (fun _ => true) 5 c3xSt c3xCs c3wClassify.1
    c3wClassify.2 c3xRes (by decide) (by decide) { id := "dddddddddddd" } (by decide)
    c3wRec (by decide) (by decide) (by decide)
  ⟨h.1, h.2.2.2 (by decide) (by decide)⟩

/-- Shared helper: a tracked, processed container whose recomputed runtime
meets its budget is in the kill set at the end of the classification phase
(serverWorker.go:429-431). -/
theorem classify_tracked_expired_kill (now : Int) (st : WorkerState)
    (cs : List Container) (stA : WorkerState) (ids : List String)
    (hcl : classifyLoop now cs st [] = .ok (stA, ids))
    (c : Container) (hc : c ∈ cs) (r : DockerJob)
    (hr : mapGet st.runningJobs c.id = some r)
    (hself : c.id.take 12 ≠ st.hostname)
    (hexp : r.baseJob.duration ≤ now - r.baseJob.startTime) :
    c.id ∈ mapKeys stA.jobsToKill := by
  obtain ⟨l1, l2, hsplit⟩ := List.append_of_mem hc
  subst hsplit
  rw [classifyLoop_append] at hcl
  cases hpre : classifyLoop now l1 st [] with
  | error e => rw [hpre] at hcl; simp at hcl
  | ok p =>
      obtain ⟨stP, idsP⟩ := p
      rw [hpre] at hcl
      have hhostP : stP.hostname = st.hostname :=
        (classifyLoop_hostname_ids now l1 st [] stP idsP hpre).1
      have hgetP : mapGet stP.runningJobs c.id = some r :=
        classifyLoop_tracked_get now l1 st [] stP idsP hpre c.id r hr
      simp only [classifyLoop] at hcl
      by_cases hlen : 12 ≤ c.id.length
      · rw [classifyStep_tracked now stP idsP c r hlen (by rw [hhostP]; exact hself)
          hgetP, if_pos hexp] at hcl
        have hkill :=
          classifyLoop_kill_isSome now l2 _ _ stA ids hcl c.id
            (by simp [mapGet_mapUpdate])
        exact (mem_mapKeys stA.jobsToKill c.id).mpr hkill
      · rw [classifyStep_short now stP idsP c hlen] at hcl
        simp at hcl

/-- C4: every tracked registry entry whose recomputed totalRunTime (elapsed
since its startTime) is at least its duration budget, the budget not being
the unbounded sentinel, is present in the kill set once the classification
phase has run — before the reconciliation pass completes. -/
theorem c4_expired_entry_in_kill_set (now : Int) (st : WorkerState)
    (cs : List Container) (stA : WorkerState) (ids : List String)
    (hcl : classifyLoop now cs st [] = .ok (stA, ids))
    (c : Container) (hc : c ∈ cs) (r : DockerJob)
    (hr : mapGet st.runningJobs c.id = some r)
    (hself : c.id.take 12 ≠ st.hostname)
    (hexp : r.baseJob.duration ≤ now - r.baseJob.startTime)
    (_hsent : r.baseJob.duration ≠ sentinelDuration) :
    c.id ∈ mapKeys stA.jobsToKill :=
  classify_tracked_expired_kill now st cs stA ids hcl c hc r hr hself hexp

def c4wRec : DockerJob :=
  { baseJob := { startTime := 0, totalRunTime := 0, duration := 3 },
    container := { id := "ffffffffffff" } }

def c4wSt : WorkerState :=
  { hostname := "hhhhhhhhhhhh",
    runningJobs := [("ffffffffffff", c4wRec)],
    jobsToKill := [] }

def c4wCs : List Container := [{ id := "ffffffffffff" }]

def c4wClassify : WorkerState × List String :=
  match classifyLoop 5 c4wCs c4wSt [] with
  | .ok p => p
  | .error _ => (c4wSt, [])

/-- Witness for C4: a tracked job with budget 3 observed at elapsed time 5 is
in the kill set after classification. -/
theorem c4_expired_entry_in_kill_set_witness :
    "ffffffffffff" ∈ mapKeys c4wClassify.1.jobsToKill :=
  c4_expired_entry_in_kill_set 5 c4wSt c4wCs c4wClassify.1 c4wClassify.2 (by decide)
    { id := "ffffffffffff" } (by decide) c4wRec (by decide) (by decide) (by decide)
    (by decide)

def c5xRec : DockerJob :=
  { baseJob := { startTime := 0, totalRunTime := 0, duration := sentinelDuration },
    container := { id := "eeeeeeeeeeee" } }

def c5xSt : WorkerState :=
  { hostname := "hhhhhhhhhhhh",
    runningJobs := [("eeeeeeeeeeee", c5xRec)],
    jobsToKill := [] }

def c5xCs : List Container := [{ id := "eeeeeeeeeeee" }]

def c5xClassify : WorkerState × List String :=
  match classifyLoop 5 c5xCs c5xSt [] with
  | .ok p => p
  | .error _ => (c5xSt, [])

/-- Counterexample to C5 as stated: a tracked entry with the sentinel budget,
with the kill set initially empty, ends up in the kill set after the
classification phase — and since its id is tracked, only the budget-expiry
branch can have added it: the expiry comparison fires because any
non-negative recomputed runtime is at least the sentinel value. -/
theorem c5_counterexample :
    mapGet c5xSt.runningJobs "eeeeeeeeeeee" = some c5xRec ∧
    c5xRec.baseJob.duration = sentinelDuration ∧
    c5xSt.jobsToKill = [] ∧
    classifyLoop 5 c5xCs c5xSt [] = .ok c5xClassify ∧
    "eeeeeeeeeeee" ∈ mapKeys c5xClassify.1.jobsToKill := by decide

/-- C5 amended: the budget-expiry check does not exempt the unbounded
sentinel: a tracked, processed registry entry whose budget is the sentinel is
added to the kill set by the expiry check whenever observed at or after its
startTime, since its non-negative recomputed runtime always reaches the
sentinel value of minus one nanosecond. -/
theorem c5_sentinel_not_exempt (now : Int) (st : WorkerState)
    (cs : List Container) (stA : WorkerState) (ids : List String)
    (hcl : classifyLoop now cs st [] = .ok (stA, ids))
    (c : Container) (hc : c ∈ cs) (r : DockerJob)
    (hr : mapGet st.runningJobs c.id = some r)
    (hself : c.id.take 12 ≠ st.hostname)
    (hsent : r.baseJob.duration = sentinelDuration)
    (hnow : r.baseJob.startTime ≤ now) :
    c.id ∈ mapKeys stA.jobsToKill :=
  classify_tracked_expired_kill now st cs stA ids hcl c hc r hr hself
    (by rw [hsent]; unfold sentinelDuration; omega)

/-- Witness for the amended C5: the concrete sentinel-budget job of the C5
counterexample input, via the general theorem. -/
theorem c5_sentinel_not_exempt_witness :
    "eeeeeeeeeeee" ∈ mapKeys c5xClassify.1.jobsToKill ∧
    c5xRec.baseJob.duration = sentinelDuration :=
  ⟨c5_sentinel_not_exempt 5 c5xSt c5xCs c5xClassify.1 c5xClassify.2 (by decide)
    { id := "eeeeeeeeeeee" } (by decide) c5xRec (by decide) (by decide) (by decide)
    (by decide), by decide⟩

/-- C6: one run of the kill processor gives every identity in the kill set a
StopJob attempt (evaluated against the pre-run state); when the stop succeeds
the identity is removed from both the kill set and the registry, and when it
fails both maps are left unchanged at that identity, which therefore remains
in the kill set for the next cycle's retry. -/
theorem c6_kill_processor (stopOk : String → Bool) (now : Int) (st : WorkerState)
    (id : String) (hid : id ∈ mapKeys st.jobsToKill) :
    (∀ j, (stopJob stopOk now st id).2 = .ok j →
        id ∉ mapKeys (killJobs stopOk now st).jobsToKill ∧
        id ∉ mapKeys (killJobs stopOk now st).runningJobs) ∧
    (∀ e, (stopJob stopOk now st id).2 = .error e →
        mapGet (killJobs stopOk now st).jobsToKill id = mapGet st.jobsToKill id ∧
        mapGet (killJobs stopOk now st).runningJobs id = mapGet st.runningJobs id ∧
        id ∈ mapKeys (killJobs stopOk now st).jobsToKill) := by
  constructor
  · intro j hj
    obtain ⟨hsome, hok⟩ := stopJob_ok_inv stopOk now st id j hj
    obtain ⟨h1, h2⟩ :=
      killLoop_success stopOk now (mapKeys st.jobsToKill) st id hid hsome hok
    unfold killJobs
    constructor
    · rw [mem_mapKeys, h2]; simp
    · rw [mem_mapKeys, h1]; simp
  · intro e he
    have hfail := stopJob_error_inv stopOk now st id e he
    obtain ⟨h1, h2⟩ :=
      killLoop_fail_preserved stopOk now (mapKeys st.jobsToKill) st id hfail
    unfold killJobs
    refine ⟨h2, h1, ?_⟩
    rw [mem_mapKeys, h2]
    exact (mem_mapKeys st.jobsToKill id).mp hid

def c6wRecG : DockerJob :=
  { baseJob := { startTime := 0, totalRunTime := 0, duration := 1 },
    container := { id := "gggggggggggg" } }

def c6wRecK : DockerJob :=
  { baseJob := { startTime := 0, totalRunTime := 0, duration := 1 },
    container := { id := "kkkkkkkkkkkk" } }

def c6wSt : WorkerState :=
  { hostname := "hhhhhhhhhhhh",
    runningJobs := [("gggggggggggg", c6wRecG), ("kkkkkkkkkkkk", c6wRecK)],
    jobsToKill := [("gggggggggggg", c6wRecG), ("kkkkkkkkkkkk", c6wRecK)] }

def c6wStop : String → Bool := fun id => id == "gggggggggggg"

def c6wJob : DockerJob :=
  match (stopJob c6wStop 0 c6wSt "gggggggggggg").2 with
  | .ok j => j
  | .error _ => c6wRecG

/-- Witness for C6: a kill set with one stoppable and one unstoppable job;
the first leaves both maps, the second stays untouched and pending. -/
theorem c6_kill_processor_witness :
    ("gggggggggggg" ∉ mapKeys (killJobs c6wStop 0 c6wSt).jobsToKill ∧
     "gggggggggggg" ∉ mapKeys (killJobs c6wStop 0 c6wSt).runningJobs) ∧
    (mapGet (killJobs c6wStop 0 c6wSt).jobsToKill "kkkkkkkkkkkk" =
        mapGet c6wSt.jobsToKill "kkkkkkkkkkkk" ∧
      mapGet (killJobs c6wStop 0 c6wSt).runningJobs "kkkkkkkkkkkk" =
        mapGet c6wSt.runningJobs "kkkkkkkkkkkk" ∧
      "kkkkkkkkkkkk" ∈ mapKeys (killJobs c6wStop 0 c6wSt).jobsToKill) :=
  ⟨(c6_kill_processor c6wStop 0 c6wSt "gggggggggggg" (by decide)).1 c6wJob (by decide),
   (c6_kill_processor c6wStop 0 c6wSt "kkkkkkkkkkkk" (by decide)).2
     "container stop failed" (by decide)⟩

/-- C7: StopJob on an id absent from the registry returns the not-found error
and mutates nothing, so a second call on the resulting state returns
not-found again with registry and kill set unchanged; on a tracked id whose
runtime stop succeeds, StopJob recomputes the record's totalRunTime one final
time on the record it reports (the maps themselves are not written by
StopJob; removal is the kill processor's job). -/
theorem c7_stop_job (stopOk : String → Bool) (now now2 : Int) (st : WorkerState)
    (id : String) :
    (mapGet st.runningJobs id = none →
      stopJob stopOk now st id = (st, .error "failed to stop: Job ID not found") ∧
      stopJob stopOk now2 (stopJob stopOk now st id).1 id =
        (st, .error "failed to stop: Job ID not found")) ∧
    (∀ r, mapGet st.runningJobs id = some r → stopOk id = true →
      (stopJob stopOk now st id).1 = st ∧
      (stopJob stopOk now st id).2 = .ok (r.updateTotalRunTime now) ∧
      (r.updateTotalRunTime now).baseJob.totalRunTime = now - r.baseJob.startTime) := by
  constructor
  · intro hnone
    have h1 : stopJob stopOk now st id =
        (st, .error "failed to stop: Job ID not found") := by
      unfold stopJob
      rw [hnone]
    refine ⟨h1, ?_⟩
    rw [h1]
    show stopJob stopOk now2 st id = (st, .error "failed to stop: Job ID not found")
    unfold stopJob
    rw [hnone]
  · intro r hr hok
    refine ⟨stopJob_fst stopOk now st id, ?_, rfl⟩
    unfold stopJob
    rw [hr]
    simp [hok]

def c7wRec : DockerJob :=
  { baseJob := { startTime := 1, totalRunTime := 0, duration := 9 },
    container := { id := "mmmmmmmmmmmm" } }

def c7wSt : WorkerState :=
  { hostname := "hhhhhhhhhhhh",
    runningJobs := [("mmmmmmmmmmmm", c7wRec)],
    jobsToKill := [] }

def c7wStop : String → Bool := fun _ => true

/-- Witness for C7: a double StopJob on an unknown id and a StopJob on a
tracked id, at concrete times. -/
theorem c7_stop_job_witness :
    (stopJob c7wStop 4 c7wSt "zzzz" =
        (c7wSt, .error "failed to stop: Job ID not found") ∧
      stopJob c7wStop 6 (stopJob c7wStop 4 c7wSt "zzzz").1 "zzzz" =
        (c7wSt, .error "failed to stop: Job ID not found")) ∧
    ((stopJob c7wStop 4 c7wSt "mmmmmmmmmmmm").1 = c7wSt ∧
      (stopJob c7wStop 4 c7wSt "mmmmmmmmmmmm").2 = .ok (c7wRec.updateTotalRunTime 4) ∧
      (c7wRec.updateTotalRunTime 4).baseJob.totalRunTime = 4 - c7wRec.baseJob.startTime) :=
  ⟨(c7_stop_job c7wStop 4 6 c7wSt "zzzz").1 (by decide),
   (c7_stop_job c7wStop 4 6 c7wSt "mmmmmmmmmmmm").2 c7wRec (by decide) (by decide)⟩

/-- C8: under the restart conflict-resolution policy, StartMeter from the
Running state stops the existing session, resets the handle to a fresh
instance, and starts a new session; hence two back-to-back StartMeter calls
with the underlying device commands succeeding both return success and the
meter ends in the Running state. -/
theorem c8_start_meter_restart (env : MeterEnv) (m : Wattsup)
    (hstart : env.startOk = true) (hstop : env.stopOk = true) :
    ∃ m1 m2, startMeter env m = .ok m1 ∧ m1.isRunning = true ∧
      startMeter env m1 = .ok m2 ∧ m2.isRunning = true := by
  refine ⟨⟨true⟩, ⟨true⟩, ?_, rfl, ?_, rfl⟩
  · cases hm : m.isRunning
    · simp [startMeter, hm, pmStart, hstart]
    · simp [startMeter, hm, pmStop, hstop, pmStart, hstart, pmNew]
  · simp [startMeter, pmStop, hstop, pmStart, hstart, pmNew]

/-- Witness for C8: a fresh meter handle and an all-succeeding device. -/
theorem c8_start_meter_restart_witness :
    ∃ m1 m2, startMeter { startOk := true, stopOk := true } pmNew = .ok m1 ∧
      m1.isRunning = true ∧
      startMeter { startOk := true, stopOk := true } m1 = .ok m2 ∧
      m2.isRunning = true :=
  c8_start_meter_restart { startOk := true, stopOk := true } pmNew rfl rfl

def c9Env : MgrEnv :=
  { rpcDialOk := true,
    rpcIsAvailableReply := some false,
    rpcPowerMeterOnReply := some false,
    rpcStartMeterOk := true,
    httpAvailableStatus := none,
    httpPowerMeterStatus := none,
    httpPowerMeterBodyNotRunning := false,
    httpStartMeterCompleted := false }

def c9Config : MgrConfig :=
  { rpcServer := true, rpcPort := ":7777", httpPort := "" }

/-- C9 evaluated at the failing input: over the RPC transport the IsAvailable
call completes and the worker's boolean reply is false — the worker does not
answer positively — yet construction succeeds and returns a client, because
managerIsAvailable drops the reply on the floor (managerWorker.go:249-253
reads the reply into a variable it never consults).  The claim says
construction must return an error and no client in this situation. -/
theorem c9_new_ignores_negative_reply :
    c9Config.rpcServer = true ∧
    c9Env.rpcIsAvailableReply = some false ∧
    mgrNew c9Env c9Config =
      .ok { rpcServer := true, available := true, hasPowerMeter := false } := by decide

theorem statsLoop_total (hostname : String) (statsOf : String → Option String)
    (cs : List Container) : ∀ acc, (∀ c ∈ cs, 12 ≤ c.id.length) →
      ∃ out, statsLoop hostname statsOf cs acc = .ok out := by
  induction cs with
  | nil => intro acc _; exact ⟨acc, rfl⟩
  | cons c cs ih =>
      intro acc hlen
      have hc : 12 ≤ c.id.length := hlen c (List.mem_cons_self c cs)
      have hrest : ∀ c1 ∈ cs, 12 ≤ c1.id.length :=
        fun c1 h1 => hlen c1 (List.mem_cons_of_mem c h1)
      by_cases hh : c.id.take 12 = hostname
      · obtain ⟨out, hout⟩ := ih acc hrest
        refine ⟨out, ?_⟩
        simp only [statsLoop, if_pos hc, if_neg (not_not_intro hh)]
        exact hout
      · cases hstat : statsOf c.id with
        | none =>
            obtain ⟨out, hout⟩ := ih acc hrest
            exact ⟨out, by
              simp only [statsLoop, if_pos hc, if_pos hh, hstat]
              exact hout⟩
        | some raw =>
            obtain ⟨out, hout⟩ := ih (acc ++ [(c.id, raw)]) hrest
            exact ⟨out, by
              simp only [statsLoop, if_pos hc, if_pos hh, hstat]
              exact hout⟩

def c10xSt : WorkerState :=
  { hostname := "hhhhhhhhhhhh", runningJobs := [], jobsToKill := [] }

/-- C10: reconciliation and the bulk per-container stats fetch slice the
first twelve characters of every runtime-reported id for the self-exclusion
check; both operations are total whenever every reported id has length at
least twelve, and on an input containing a shorter id the self-exclusion
slice faults (the modelled Go panic). -/
theorem c10_slice_needs_length :
    (∀ (stopOk : String → Bool) (statsOf : String → Option String) (now : Int)
        (st : WorkerState) (cs : List Container),
      (∀ c ∈ cs, 12 ≤ c.id.length) →
      (∃ st1, updateGetRunningJobs stopOk now st cs = .ok st1) ∧
      (∃ out, getRunningJobsStats stopOk statsOf now st cs = .ok out)) ∧
    updateGetRunningJobs (fun _ => true) 0 c10xSt [{ id := "short" }] = .error () ∧
    getRunningJobsStats (fun _ => true) (fun _ => none) 0 c10xSt [{ id := "short" }] =
      .error () := by
  refine ⟨?_, by decide, by decide⟩
  intro stopOk statsOf now st cs hlen
  obtain ⟨st1, ids1, hcl⟩ := classifyLoop_total now cs st [] hlen
  have hup : updateGetRunningJobs stopOk now st cs =
      .ok { killJobs stopOk now st1 with
            runningJobs := mapRefresh (killJobs stopOk now st1).runningJobs ids1 } := by
    unfold updateGetRunningJobs
    rw [hcl]
  refine ⟨⟨_, hup⟩, ?_⟩
  obtain ⟨out, hout⟩ := statsLoop_total st.hostname statsOf cs [] hlen
  exact ⟨_, by
    unfold getRunningJobsStats
    rw [hup, hout]⟩

def c10wCs : List Container := [{ id := "nnnnnnnnnnnn" }, { id := "pppppppppppp" }]

/-- Witness for C10: both operations complete on ids of length twelve. -/
theorem c10_slice_needs_length_witness :
    (∃ st1, updateGetRunningJobs (fun _ => true) 0 c10xSt c10wCs = .ok st1) ∧
    (∃ out, getRunningJobsStats (fun _ => true) (fun _ => none) 0 c10xSt c10wCs =
      .ok out) :=
  c10_slice_needs_length.1 (fun _ => true) (fun _ => none) 0 c10xSt c10wCs (by decide)

end Worker
